import Mathlib

/-!
Shallow embedding of the inference-serving layer of the video super-resolution
repository (realesrgan and swinir2 SageMaker inference entry points), together
with proofs about its batch dispatch, batch-size admission, tiling policy,
model caching and S3 transfer logic.

Conventions of the embedding:
* Machine effects (S3 transfers, image decoding, model invocation, file writes)
  are modelled by explicit effect oracles (`ItemEnv`, `DownloadEnv`, ...) whose
  boolean fields say whether the corresponding call succeeds; a Python
  exception escaping a function is an `Except.error`.
* The local filesystem is a list of existing paths, threaded explicitly.
* Python `float` arithmetic inside `determine_optimal_batch_size` is modelled
  over `ℚ` (the literal `0.8` as the rational `8/10`); `int(x)` is truncation
  toward zero.
* `concurrent.futures.as_completed` yields results in an arbitrary order, which
  the embedding captures by an explicit completion-order parameter required to
  be a permutation of the sub-batch indices.
-/

namespace Realesrgan

/-- Python `int(q)` on a rational: truncation toward zero. -/
def truncRat (q : ℚ) : ℤ := if 0 ≤ q then ⌊q⌋ else ⌈q⌉

/-- `100 * 1024 * 1024` bytes, `MULTIPART_THRESHOLD` in the source. -/
def MULTIPART_THRESHOLD : ℕ := 100 * 1024 * 1024

/-- Snapshot of the device/memory queries made inside
`determine_optimal_batch_size`: `torch.cuda.is_available()`,
`get_device_properties(0).total_memory`, `memory_reserved(0)`,
`memory_allocated(0)`. -/
structure MemInfo where
  cuda_available : Bool
  total_memory : ℤ
  memory_reserved : ℤ
  memory_allocated : ℤ
deriving Repr, DecidableEq

/-- Per-image memory cost constant used by the source (500 MB in bytes). -/
def memory_per_image : ℤ := 500 * 1024 * 1024

/-- Embedding of `determine_optimal_batch_size` (realesrgan `inference.py`).
The whole body runs inside `try`/`except`, so the estimation outcome is an
`Except`: an `.error` is any exception raised by the memory queries. -/
def determine_optimal_batch_size (est : Except String MemInfo) : ℕ :=
  match est with
  | .error _ => 4
  | .ok info =>
    if info.cuda_available then
      let free_memory : ℚ := ((info.memory_reserved - info.memory_allocated : ℤ) : ℚ)
      let safe_memory : ℚ := free_memory * (8 / 10)
      let calculated_batch_size : ℤ :=
        max 1 (truncRat (safe_memory / (memory_per_image : ℚ)))
      (min calculated_batch_size 16).toNat
    else 4

theorem determine_optimal_batch_size_pos (est : Except String MemInfo) :
    1 ≤ determine_optimal_batch_size est := by
  unfold determine_optimal_batch_size
  match est with
  | .error _ => simp
  | .ok info =>
    by_cases h : info.cuda_available
    · simp only [h, if_true]
      have h1 : (1 : ℤ) ≤ max 1 (truncRat (((info.memory_reserved - info.memory_allocated : ℤ) : ℚ) * (8 / 10) / (memory_per_image : ℚ))) :=
        le_max_left _ _
      omega
    · simp [h]

theorem determine_optimal_batch_size_le (info : MemInfo) :
    determine_optimal_batch_size (.ok info) ≤ 16 := by
  unfold determine_optimal_batch_size
  by_cases h : info.cuda_available
  · simp only [h, if_true]
    have h2 := min_le_right
      (max 1 (truncRat (((info.memory_reserved - info.memory_allocated : ℤ) : ℚ) * (8 / 10) / (memory_per_image : ℚ)))) (16 : ℤ)
    omega
  · simp [h]

/-- Index of the last occurrence of `c` in `l` (Python `str.rfind`, as an
`Option` instead of `-1`). -/
def lastIdxOf (c : Char) (l : List Char) : Option ℕ :=
  match l.reverse.findIdx? (· = c) with
  | none => none
  | some i => some (l.length - 1 - i)

/-- `os.path.splitext`, following CPython: split at the last dot that comes
after the last path separator, unless every character between the separator
and that dot is itself a dot (leading dots of the basename never start an
extension). -/
def splitext (p : String) : String × String :=
  let cs := p.toList
  let sepIndex : ℤ := match lastIdxOf '/' cs with | some i => (i : ℤ) | none => -1
  let dotIndex : ℤ := match lastIdxOf '.' cs with | some i => (i : ℤ) | none => -1
  if sepIndex < dotIndex then
    let between := (cs.take dotIndex.toNat).drop (sepIndex + 1).toNat
    if between.any (fun ch => ch ≠ '.') then
      (String.mk (cs.take dotIndex.toNat), String.mk (cs.drop dotIndex.toNat))
    else (p, "")
  else (p, "")

/-- Python `str.startswith`, modelled over the character list (the byte-level
primitive of the Lean core library is not kernel-reducible). -/
def startswith (pre s : String) : Bool := pre.toList.isPrefixOf s.toList

/-- Python `str.lower`, modelled characterwise. -/
def lower (s : String) : String := String.mk (s.toList.map Char.toLower)

/-- `os.path.basename`: everything after the last `/`. -/
def basename (p : String) : String :=
  String.mk (p.toList.drop (match lastIdxOf '/' p.toList with | some i => i + 1 | none => 0))

/-- A single request item (one JSON object of the request), fields optional as
in a Python dict. `batch_id` is numeric because `process_batch` overwrites it
with a positional index. -/
structure Item where
  input_file_path : Option String := none
  output_file_path : Option String := none
  job_id : Option String := none
  batch_id : Option ℕ := none
  face_enhanced : Option String := none
  is_anime : Option String := none
  tile_size : Option ℕ := none
deriving Repr, DecidableEq

/-- Effect oracle for one `process_single_image` call: whether each effectful
step succeeds, and the decoded image dimensions (`img.shape[0]`, `[1]`). -/
structure ItemEnv where
  download_ok : Bool := true
  image_readable : Bool := true
  img_h : ℕ := 0
  img_w : ℕ := 0
  enhance_ok : Bool := true
  imwrite_ok : Bool := true
  upload_ok : Bool := true
  copy_ok : Bool := true
deriving Repr, DecidableEq

/-- A result dict as built by `process_single_image` / `process_batch`. -/
structure Entry where
  status : ℕ
  error : Option String := none
  job_id : Option String := none
  batch_id : Option ℕ := none
  output_file_path : Option String := none
  input_file_path : Option String := none
deriving Repr, DecidableEq

/-- Ghost trace of the model invocation: which enhancer ran and with which
tile size (the `tile=` argument passed to `upsampler.enhance`). -/
structure EnhanceCall where
  used_face_enhancer : Bool
  used_anime_model : Bool
  tile : ℕ
deriving Repr, DecidableEq

def IMAGE_CACHE_DIR : String := "/tmp/image_cache"

/-- The local cache output path derived from an input file path:
`IMAGE_CACHE_DIR/<imgname>_upscaled<extension>`. -/
def local_output_path_of (input_file_path : String) : String :=
  let ie := splitext (basename input_file_path)
  IMAGE_CACHE_DIR ++ "/" ++ ie.1 ++ "_upscaled" ++ ie.2

/-- Model selection and tiling decision of `process_single_image`: the code
between reading the image and invoking the enhancer. Face enhancement ignores
tiling; otherwise the anime or standard model is selected and
`tile_size = input_data.get('tile_size', 0)` is bumped to `1024` when it is
`0` and `max(img.shape[0], img.shape[1]) > 1500`. -/
def enhanceCallOf (input_data : Item) (env : ItemEnv) : EnhanceCall :=
  let face : Bool := match input_data.face_enhanced with
    | some s => lower s == "yes"
    | none => false
  if face then { used_face_enhancer := true, used_anime_model := false, tile := 0 }
  else
    let anime : Bool := match input_data.is_anime with
      | some s => lower s == "yes" || lower s == "true"
      | none => false
    let tile_size := input_data.tile_size.getD 0
    let tile_size :=
      if tile_size = 0 ∧ 1500 < max env.img_h env.img_w then 1024 else tile_size
    { used_face_enhancer := false, used_anime_model := anime, tile := tile_size }

/-- The body of `process_single_image` once the four required request fields
have been extracted (each stage guarded by its effect oracle, failures at any
stage returning a status-500 entry as in the source's `except` clauses). -/
def process_single_image_body (input_file_path output_file_path job_id : String)
    (batch_id : ℕ) (input_data : Item) (env : ItemEnv) :
    Except String Entry × Option EnhanceCall :=
  let is_s3_input := startswith "s3://" input_file_path
  let is_s3_output := startswith "s3://" output_file_path
  let local_output_path := local_output_path_of input_file_path
  let fail : Entry := { status := 500, job_id := some job_id, batch_id := some batch_id }
  if is_s3_input ∧ env.download_ok = false then
    (.ok { fail with error := some "download error" }, none)
  else if env.image_readable = false then
    (.ok { fail with error := some "read error" }, none)
  else
    let call := enhanceCallOf input_data env
    if env.enhance_ok = false then
      (.ok { fail with error := some "enhance error" }, some call)
    else if env.imwrite_ok = false then
      (.ok { fail with error := some "imwrite error" }, some call)
    else
      let ok : Entry := { status := 200, output_file_path := some output_file_path,
                          job_id := some job_id, batch_id := some batch_id }
      if is_s3_output then
        if env.upload_ok = false then
          (.ok { fail with error := some "upload error" }, some call)
        else (.ok ok, some call)
      else if local_output_path ≠ output_file_path then
        if env.copy_ok = false then
          (.ok { fail with error := some "copy error" }, some call)
        else (.ok ok, some call)
      else (.ok ok, some call)

/-- Embedding of `process_single_image` (realesrgan `inference.py`).
Returns the result entry (or an uncaught exception such as the `KeyError` for
a missing required field) together with the ghost trace of the model
invocation (`none` when a failure occurs before the model is reached). -/
def process_single_image (input_data : Item) (env : ItemEnv) :
    Except String Entry × Option EnhanceCall :=
  match input_data.input_file_path, input_data.output_file_path,
        input_data.job_id, input_data.batch_id with
  | some input_file_path, some output_file_path, some job_id, some batch_id =>
    process_single_image_body input_file_path output_file_path job_id batch_id
      input_data env
  | _, _, _, _ => (.error "KeyError: missing required request field", none)

/-- The dict-splat `{**item, 'job_id': job_id, 'batch_id': idx + i}` submitted
by `process_batch` for each item: later keys win, so the caller-supplied
`job_id` and `batch_id` are overwritten. -/
def submittedItem (job : String) (gidx : ℕ) (item : Item) : Item :=
  { item with job_id := some job, batch_id := some gidx }

/-- One result entry for the batch item submitted at global index `gidx`:
when the worker raises, `process_batch` appends the failure entry of its
`except` branch. -/
def batchEntry (job : String) (gidx : ℕ) (item : Item) (env : ItemEnv) : Entry :=
  match (process_single_image (submittedItem job gidx item) env).1 with
  | .ok e => e
  | .error msg =>
    { status := 500, error := some msg, job_id := some job, batch_id := some gidx,
      input_file_path := some (item.input_file_path.getD "unknown") }

/-- Results of one sub-batch collected in `as_completed` order: `order` lists
the positions of the sub-batch in their completion order. -/
def chunkEntries (job : String) (envs : ℕ → ItemEnv) (order : List ℕ)
    (sub : List (ℕ × Item)) : List Entry :=
  order.filterMap fun k => (sub[k]?).map fun gi => batchEntry job gi.1 gi.2 (envs gi.1)

/-- The `for i in range(0, len(batch_items), batch_size)` loop of
`process_batch`: each iteration handles the sub-batch `items[i:i+bs]` whose
items carry global indices, with completion order `orders ci` for the `ci`-th
sub-batch. (Python raises on a zero step, and the admitted batch size is
provably positive, so the `bs = 0` branch is never exercised.) -/
def batchResults (job : String) (envs : ℕ → ItemEnv) (orders : ℕ → List ℕ)
    (bs : ℕ) (ci : ℕ) (l : List (ℕ × Item)) : List Entry :=
  match l with
  | [] => []
  | x :: xs =>
    if _hbs : bs = 0 then chunkEntries job envs (orders ci) (x :: xs)
    else
      chunkEntries job envs (orders ci) ((x :: xs).take bs) ++
        batchResults job envs orders bs (ci + 1) ((x :: xs).drop bs)
termination_by l.length
decreasing_by simp [List.length_drop]; omega

/-- The batch-level response dict of `process_batch`. -/
structure BatchResponse where
  status : ℕ
  batch_results : List Entry
  job_id : String
  total_processed : ℕ
deriving Repr, DecidableEq

/-- Embedding of `process_batch` (realesrgan `inference.py`). `envs` gives the
effect oracle of the item at each global index, `orders` the `as_completed`
completion order of each sub-batch. -/
def process_batch (batch : List Item) (job_id_opt : Option String)
    (est : Except String MemInfo) (envs : ℕ → ItemEnv) (orders : ℕ → List ℕ) :
    BatchResponse :=
  let job_id := job_id_opt.getD "batch_job"
  let batch_size := determine_optimal_batch_size est
  let results := batchResults job_id envs orders batch_size 0 batch.enum
  { status := 200, batch_results := results, job_id := job_id,
    total_processed := results.length }

/-- Validity of the completion orders: the order of the `ci`-th sub-batch is a
permutation of that sub-batch's positions (the `ci`-th chunk of an `n`-item
batch split into chunks of `bs` has length `min bs (n - ci * bs)`). -/
def OrdersOk (orders : ℕ → List ℕ) (bs n : ℕ) : Prop :=
  ∀ ci, List.Perm (orders ci) (List.range (min bs (n - ci * bs)))

theorem filterMap_getElem_range {α β : Type} (sub : List α) (f : α → β) :
    (List.range sub.length).filterMap (fun k => (sub[k]?).map f) = sub.map f := by
  induction sub with
  | nil => simp
  | cons a t ih =>
    rw [List.length_cons, List.range_succ_eq_map, List.filterMap_cons, List.filterMap_map]
    have hg : ((fun k => ((a :: t)[k]?).map f) ∘ Nat.succ) = fun k => (t[k]?).map f := by
      funext k; simp
    simp only [List.getElem?_cons_zero, Option.map_some', hg, ih, List.map_cons]

theorem chunkEntries_perm (job : String) (envs : ℕ → ItemEnv) {order : List ℕ}
    {sub : List (ℕ × Item)} (h : List.Perm order (List.range sub.length)) :
    List.Perm (chunkEntries job envs order sub)
      (sub.map fun gi => batchEntry job gi.1 gi.2 (envs gi.1)) := by
  unfold chunkEntries
  have h1 := h.filterMap
    (fun k => (sub[k]?).map fun gi => batchEntry job gi.1 gi.2 (envs gi.1))
  rw [filterMap_getElem_range] at h1
  exact h1

/-- Master shape lemma for the batch loop: under valid completion orders, the
collected results are a permutation of one `batchEntry` per item. -/
theorem batchResults_perm (job : String) (envs : ℕ → ItemEnv) (orders : ℕ → List ℕ)
    {bs : ℕ} (hbs : bs ≠ 0) :
    ∀ (n : ℕ) (l : List (ℕ × Item)), l.length ≤ n → ∀ (ci : ℕ),
      (∀ j, List.Perm (orders (ci + j)) (List.range (min bs (l.length - j * bs)))) →
      List.Perm (batchResults job envs orders bs ci l)
        (l.map fun gi => batchEntry job gi.1 gi.2 (envs gi.1)) := by
  intro n
  induction n with
  | zero =>
    intro l hl ci _
    have hnil : l = [] := List.length_eq_zero.mp (Nat.le_zero.mp hl)
    subst hnil
    simp [batchResults]
  | succ n ih =>
    intro l hl ci H
    match l with
    | [] => simp [batchResults]
    | x :: xs =>
      simp only [batchResults]
      rw [dif_neg hbs]
      have horder : List.Perm (orders ci) (List.range ((x :: xs).take bs).length) := by
        have h0 := H 0
        simpa [List.length_take] using h0
      have hrec :
          List.Perm (batchResults job envs orders bs (ci + 1) ((x :: xs).drop bs))
            (((x :: xs).drop bs).map fun gi => batchEntry job gi.1 gi.2 (envs gi.1)) := by
        apply ih
        · simp only [List.length_drop, List.length_cons] at hl ⊢
          omega
        · intro j
          have hj := H (j + 1)
          have e1 : ci + 1 + j = ci + (j + 1) := by omega
          have e2 : ((x :: xs).drop bs).length - j * bs = (x :: xs).length - (j + 1) * bs := by
            simp only [List.length_drop]
            have : (j + 1) * bs = j * bs + bs := by ring
            omega
          rw [e1, e2]
          exact hj
      have happ := (chunkEntries_perm job envs horder).append hrec
      refine happ.trans ?_
      rw [← List.map_append, List.take_append_drop]

theorem process_batch_results_perm (batch : List Item) (job_id_opt : Option String)
    (est : Except String MemInfo) (envs : ℕ → ItemEnv) (orders : ℕ → List ℕ)
    (H : OrdersOk orders (determine_optimal_batch_size est) batch.length) :
    List.Perm (process_batch batch job_id_opt est envs orders).batch_results
      (batch.enum.map fun gi =>
        batchEntry (job_id_opt.getD "batch_job") gi.1 gi.2 (envs gi.1)) := by
  have hbs : determine_optimal_batch_size est ≠ 0 := by
    have := determine_optimal_batch_size_pos est; omega
  refine batchResults_perm (job_id_opt.getD "batch_job") envs orders hbs
    batch.enum.length batch.enum le_rfl 0 ?_
  intro j
  have hh := H j
  simpa [List.enum_length] using hh

/-- With all four required fields present, `process_single_image` runs its
body on the extracted fields. -/
theorem process_single_image_of_fields (input : Item) (env : ItemEnv)
    {i o j : String} {b : ℕ}
    (hI : input.input_file_path = some i) (hO : input.output_file_path = some o)
    (hJ : input.job_id = some j) (hB : input.batch_id = some b) :
    process_single_image input env = process_single_image_body i o j b input env := by
  unfold process_single_image
  rw [hI, hO, hJ, hB]

/-- With a required field missing, `process_single_image` raises `KeyError`. -/
theorem process_single_image_keyerror (input : Item) (env : ItemEnv)
    (h : input.input_file_path = none ∨ input.output_file_path = none ∨
         input.job_id = none ∨ input.batch_id = none) :
    (process_single_image input env).1
      = Except.error "KeyError: missing required request field" := by
  unfold process_single_image
  rcases h with h | h | h | h
  · rw [h]
  · cases hI : input.input_file_path <;> rw [h]
  · cases hI : input.input_file_path <;> cases hO : input.output_file_path <;> rw [h]
  · cases hI : input.input_file_path <;> cases hO : input.output_file_path <;>
      cases hJ : input.job_id <;> rw [h]

set_option maxHeartbeats 1000000 in
/-- Every entry returned by the body of `process_single_image` echoes the
request's `job_id` and `batch_id`. -/
theorem process_single_image_body_ids (i o j : String) (b : ℕ) (input : Item)
    (env : ItemEnv) :
    ∀ e, (process_single_image_body i o j b input env).1 = Except.ok e →
      e.job_id = some j ∧ e.batch_id = some b := by
  unfold process_single_image_body
  simp only []
  split_ifs <;> (intro e he; injection he with he; subst he; exact ⟨rfl, rfl⟩)

theorem batchEntry_ids (job : String) (gidx : ℕ) (item : Item) (env : ItemEnv) :
    (batchEntry job gidx item env).job_id = some job ∧
    (batchEntry job gidx item env).batch_id = some gidx := by
  unfold batchEntry
  cases hI : item.input_file_path with
  | none =>
    rw [process_single_image_keyerror (submittedItem job gidx item) env
      (Or.inl (show (submittedItem job gidx item).input_file_path = none from hI))]
    exact ⟨rfl, rfl⟩
  | some i =>
    cases hO : item.output_file_path with
    | none =>
      rw [process_single_image_keyerror (submittedItem job gidx item) env
        (Or.inr (Or.inl
          (show (submittedItem job gidx item).output_file_path = none from hO)))]
      exact ⟨rfl, rfl⟩
    | some o =>
      rw [process_single_image_of_fields (submittedItem job gidx item) env
        (i := i) (o := o) (j := job) (b := gidx)
        (show (submittedItem job gidx item).input_file_path = some i from hI)
        (show (submittedItem job gidx item).output_file_path = some o from hO)
        rfl rfl]
      cases hres : (process_single_image_body i o job gidx
          (submittedItem job gidx item) env).1 with
      | ok e =>
        obtain ⟨hj, hb⟩ :=
          process_single_image_body_ids i o job gidx (submittedItem job gidx item)
            env e hres
        exact ⟨hj, hb⟩
      | error m => exact ⟨rfl, rfl⟩

theorem batchEntry_batch_id (job : String) (gidx : ℕ) (item : Item) (env : ItemEnv) :
    (batchEntry job gidx item env).batch_id = some gidx :=
  (batchEntry_ids job gidx item env).2

theorem batchEntry_job_id (job : String) (gidx : ℕ) (item : Item) (env : ItemEnv) :
    (batchEntry job gidx item env).job_id = some job :=
  (batchEntry_ids job gidx item env).1

/-- Any item whose input and output paths are present in the request yields an
element of `batch.enum`. -/
theorem mem_enum_of_lt {α : Type} (l : List α) (j : ℕ) (hj : j < l.length) :
    (j, l.get ⟨j, hj⟩) ∈ l.enum := by
  apply List.mem_iff_getElem?.mpr
  refine ⟨j, ?_⟩
  rw [List.getElem?_enum]
  simp [List.getElem?_eq_getElem hj, List.get_eq_getElem]

/-- The disjunction of the per-item failure stages of `process_single_image`:
S3 download, image decode, model inference, local image encode, S3 upload, or
the local copy of the result. -/
def StageFails (ifp ofp : String) (env : ItemEnv) : Prop :=
  (startswith "s3://" ifp = true ∧ env.download_ok = false) ∨
  env.image_readable = false ∨
  env.enhance_ok = false ∨
  env.imwrite_ok = false ∨
  (startswith "s3://" ofp = true ∧ env.upload_ok = false) ∨
  (startswith "s3://" ofp = false ∧ local_output_path_of ifp ≠ ofp ∧
    env.copy_ok = false)

/-- When any processing stage fails, the body of `process_single_image`
returns a status-500 entry carrying an error description (instead of
raising). -/
theorem process_single_image_body_stage_failure (ifp ofp job : String) (bid : ℕ)
    (input : Item) (env : ItemEnv) (hfail : StageFails ifp ofp env) :
    ∃ e, (process_single_image_body ifp ofp job bid input env).1 = Except.ok e ∧
      e.status = 500 ∧ e.error ≠ none := by
  unfold StageFails at hfail
  unfold process_single_image_body
  simp only []
  split_ifs with h1 h2 h3 h4 h5 h6 h7 h8 <;>
    first
      | exact ⟨_, rfl, rfl, by simp⟩
      | (exfalso
         rcases hfail with h | h | h | h | h | h <;> simp_all)

/-- When any processing stage of an item fails, its batch entry is a
status-500 entry carrying an error description. -/
theorem batchEntry_stage_failure (job : String) (gidx : ℕ) (item : Item)
    (env : ItemEnv) (ifp ofp : String) (hifp : item.input_file_path = some ifp)
    (hofp : item.output_file_path = some ofp) (hfail : StageFails ifp ofp env) :
    (batchEntry job gidx item env).status = 500 ∧
    (batchEntry job gidx item env).error ≠ none := by
  obtain ⟨e, he, hs, herr⟩ := process_single_image_body_stage_failure ifp ofp job
    gidx (submittedItem job gidx item) env hfail
  unfold batchEntry
  rw [process_single_image_of_fields (submittedItem job gidx item) env
    (i := ifp) (o := ofp) (j := job) (b := gidx)
    (show (submittedItem job gidx item).input_file_path = some ifp from hifp)
    (show (submittedItem job gidx item).output_file_path = some ofp from hofp)
    rfl rfl, he]
  exact ⟨hs, herr⟩

/-- C1: For every batch request containing N items, the batch response
contains exactly N result entries — one entry per input item (the multiset of
`batch_id` values is exactly the set of item positions, so no drops and no
duplicates) — regardless of how many items fail, and the response's
`total_processed` field equals N. -/
theorem batch_has_one_result_per_item
    (batch : List Item) (job_id_opt : Option String) (est : Except String MemInfo)
    (envs : ℕ → ItemEnv) (orders : ℕ → List ℕ)
    (H : OrdersOk orders (determine_optimal_batch_size est) batch.length) :
    (process_batch batch job_id_opt est envs orders).batch_results.length
      = batch.length ∧
    (process_batch batch job_id_opt est envs orders).total_processed
      = batch.length ∧
    List.Perm
      ((process_batch batch job_id_opt est envs orders).batch_results.map
        (fun e => e.batch_id))
      ((List.range batch.length).map some) := by
  have hp := process_batch_results_perm batch job_id_opt est envs orders H
  have hlen : (process_batch batch job_id_opt est envs orders).batch_results.length
      = batch.length := by
    have hl := hp.length_eq
    simpa [List.enum_length] using hl
  refine ⟨hlen, hlen, ?_⟩
  have hmap := hp.map (fun e => e.batch_id)
  rw [List.map_map] at hmap
  have he : ((fun e => e.batch_id) ∘ fun gi : ℕ × Item =>
      batchEntry (job_id_opt.getD "batch_job") gi.1 gi.2 (envs gi.1))
      = fun gi : ℕ × Item => some gi.1 := by
    funext gi
    exact batchEntry_batch_id (job_id_opt.getD "batch_job") gi.1 gi.2 (envs gi.1)
  rw [he] at hmap
  have hrange : batch.enum.map (fun gi : ℕ × Item => some gi.1)
      = (List.range batch.length).map some := by
    rw [show (fun gi : ℕ × Item => some gi.1) = some ∘ Prod.fst from rfl,
      ← List.map_map, List.enum_map_fst]
  rw [hrange] at hmap
  exact hmap

def demoItem1 : Item :=
  { input_file_path := some "frames/0001.png", output_file_path := some "out/0001.png",
    job_id := some "caller-job", batch_id := some 99 }

def demoItem2 : Item :=
  { input_file_path := some "frames/0002.png", output_file_path := some "out/0002.png",
    is_anime := some "yes" }

def demoBatch : List Item := [demoItem1, demoItem2]

/-- Completion orders for the demo batch: identity order for every
sub-batch. -/
def demoOrders : ℕ → List ℕ :=
  fun ci => List.range (min (determine_optimal_batch_size (Except.error "probe failed"))
    (demoBatch.length - ci * determine_optimal_batch_size (Except.error "probe failed")))

theorem demoOrders_ok :
    OrdersOk demoOrders (determine_optimal_batch_size (Except.error "probe failed"))
      demoBatch.length :=
  fun _ => List.Perm.refl _

theorem batch_has_one_result_per_item_witness :
    (process_batch demoBatch (some "job-7") (Except.error "probe failed")
      (fun _ => {}) demoOrders).total_processed = 2 :=
  (batch_has_one_result_per_item demoBatch (some "job-7")
    (Except.error "probe failed") (fun _ => {}) demoOrders demoOrders_ok).2.1

/-- C9: in realesrgan batch processing, every submitted item has its `job_id`
overwritten with the batch-level job id and its `batch_id` overwritten with
its zero-based position in the whole batch, so the result entries (success
and failure alike) carry exactly the pairs (batch job id, position) — never a
caller-supplied `batch_id`. -/
theorem batch_ids_are_positions
    (batch : List Item) (job_id_opt : Option String) (est : Except String MemInfo)
    (envs : ℕ → ItemEnv) (orders : ℕ → List ℕ)
    (H : OrdersOk orders (determine_optimal_batch_size est) batch.length) :
    List.Perm
      ((process_batch batch job_id_opt est envs orders).batch_results.map
        (fun e => (e.job_id, e.batch_id)))
      ((List.range batch.length).map
        (fun pos => (some (job_id_opt.getD "batch_job"), some pos))) := by
  have hp := process_batch_results_perm batch job_id_opt est envs orders H
  have hmap := hp.map (fun e => (e.job_id, e.batch_id))
  rw [List.map_map] at hmap
  have he : ((fun e => (e.job_id, e.batch_id)) ∘ fun gi : ℕ × Item =>
      batchEntry (job_id_opt.getD "batch_job") gi.1 gi.2 (envs gi.1))
      = fun gi : ℕ × Item => (some (job_id_opt.getD "batch_job"), some gi.1) := by
    funext gi
    have h := batchEntry_ids (job_id_opt.getD "batch_job") gi.1 gi.2 (envs gi.1)
    simp only [Function.comp_apply, h.1, h.2]
  rw [he] at hmap
  have hrange : batch.enum.map
      (fun gi : ℕ × Item => (some (job_id_opt.getD "batch_job"), some gi.1))
      = (List.range batch.length).map
        (fun pos => (some (job_id_opt.getD "batch_job"), some pos)) := by
    rw [show (fun gi : ℕ × Item => (some (job_id_opt.getD "batch_job"), some gi.1))
        = (fun pos => (some (job_id_opt.getD "batch_job"), some pos)) ∘ Prod.fst
      from rfl, ← List.map_map, List.enum_map_fst]
  rw [hrange] at hmap
  exact hmap

theorem batch_ids_are_positions_witness :
    List.Perm
      ((process_batch demoBatch (some "job-7") (Except.error "probe failed")
        (fun _ => {}) demoOrders).batch_results.map
          (fun e => (e.job_id, e.batch_id)))
      ((List.range 2).map (fun pos => (some "job-7", some pos))) :=
  batch_ids_are_positions demoBatch (some "job-7") (Except.error "probe failed")
    (fun _ => {}) demoOrders demoOrders_ok

/-- C2: if processing one batch item fails at any stage (download, decode,
inference, encode, or upload/copy), that item yields a status-500 result
entry carrying the batch job id, its positional item id and an error
description; the batch still produces one entry per item and the batch-level
response still reports status 200. -/
theorem per_item_failure_isolated
    (batch : List Item) (job_id_opt : Option String) (est : Except String MemInfo)
    (envs : ℕ → ItemEnv) (orders : ℕ → List ℕ)
    (H : OrdersOk orders (determine_optimal_batch_size est) batch.length)
    (j : ℕ) (hj : j < batch.length) (ifp ofp : String)
    (hifp : (batch.get ⟨j, hj⟩).input_file_path = some ifp)
    (hofp : (batch.get ⟨j, hj⟩).output_file_path = some ofp)
    (hfail : StageFails ifp ofp (envs j)) :
    (∃ e, e ∈ (process_batch batch job_id_opt est envs orders).batch_results ∧
       e.batch_id = some j ∧ e.job_id = some (job_id_opt.getD "batch_job") ∧
       e.status = 500 ∧ e.error ≠ none) ∧
    (process_batch batch job_id_opt est envs orders).batch_results.length
      = batch.length ∧
    (process_batch batch job_id_opt est envs orders).status = 200 := by
  have hp := process_batch_results_perm batch job_id_opt est envs orders H
  have hlen : (process_batch batch job_id_opt est envs orders).batch_results.length
      = batch.length := by
    have hl := hp.length_eq
    simpa [List.enum_length] using hl
  refine ⟨?_, hlen, rfl⟩
  refine ⟨batchEntry (job_id_opt.getD "batch_job") j (batch.get ⟨j, hj⟩) (envs j),
    ?_, batchEntry_batch_id .., batchEntry_job_id ..,
    (batchEntry_stage_failure (job_id_opt.getD "batch_job") j (batch.get ⟨j, hj⟩)
      (envs j) ifp ofp hifp hofp hfail).1,
    (batchEntry_stage_failure (job_id_opt.getD "batch_job") j (batch.get ⟨j, hj⟩)
      (envs j) ifp ofp hifp hofp hfail).2⟩
  apply hp.mem_iff.mpr
  exact List.mem_map_of_mem
    (fun gi : ℕ × Item =>
      batchEntry (job_id_opt.getD "batch_job") gi.1 gi.2 (envs gi.1))
    (mem_enum_of_lt batch j hj)

/-- Effect oracle that makes the image decode fail. -/
def demoFailEnv : ItemEnv := { image_readable := false }

theorem per_item_failure_isolated_witness :
    (∃ e, e ∈ (process_batch demoBatch (some "job-7") (Except.error "probe failed")
        (fun k => if k = 0 then demoFailEnv else {}) demoOrders).batch_results ∧
      e.batch_id = some 0 ∧ e.job_id = some "job-7" ∧
      e.status = 500 ∧ e.error ≠ none) ∧
    (process_batch demoBatch (some "job-7") (Except.error "probe failed")
      (fun k => if k = 0 then demoFailEnv else {}) demoOrders).batch_results.length
      = 2 ∧
    (process_batch demoBatch (some "job-7") (Except.error "probe failed")
      (fun k => if k = 0 then demoFailEnv else {}) demoOrders).status = 200 :=
  per_item_failure_isolated demoBatch (some "job-7") (Except.error "probe failed")
    (fun k => if k = 0 then demoFailEnv else {}) demoOrders demoOrders_ok
    0 (by decide) "frames/0001.png" "out/0001.png" rfl rfl
    (Or.inr (Or.inl rfl))

/-- The tiling decision, restated over the raw request field: tile 1024 when
`tile_size` is unset or zero and the larger image dimension exceeds 1500,
otherwise the caller-supplied value (0 when unset). -/
theorem enhanceCallOf_tile (input : Item) (env : ItemEnv)
    (hface : (enhanceCallOf input env).used_face_enhancer = false) :
    (enhanceCallOf input env).tile
      = if (input.tile_size = none ∨ input.tile_size = some 0)
            ∧ 1500 < max env.img_h env.img_w then 1024
        else input.tile_size.getD 0 := by
  unfold enhanceCallOf at hface ⊢
  simp only [] at hface ⊢
  by_cases hf : (match input.face_enhanced with
      | some s => lower s == "yes"
      | none => false) = true
  · rw [if_pos hf] at hface
    cases hface
  · rw [if_neg hf]
    simp only []
    cases htile : input.tile_size with
    | none => simp
    | some t =>
      by_cases ht : t = 0 <;> simp [ht]

/-- C4: for every image processed without face enhancement, the model is
invoked with tile size 1024 when the request's `tile_size` is unset or 0 and
the decoded image's larger dimension exceeds 1500 pixels; otherwise with the
caller-supplied tile size (0, the default for an unset field, meaning the
whole image is processed without tiling). -/
theorem tiling_policy (input : Item) (env : ItemEnv) (c : EnhanceCall)
    (hc : (process_single_image input env).2 = some c)
    (hface : c.used_face_enhancer = false) :
    c.tile = if (input.tile_size = none ∨ input.tile_size = some 0)
        ∧ 1500 < max env.img_h env.img_w then 1024
      else input.tile_size.getD 0 := by
  have hcall : c = enhanceCallOf input env := by
    cases hI : input.input_file_path with
    | none =>
      rw [show (process_single_image input env).2 = none by
        unfold process_single_image; rw [hI]] at hc
      cases hc
    | some i =>
      cases hO : input.output_file_path with
      | none =>
        rw [show (process_single_image input env).2 = none by
          unfold process_single_image
          cases input.input_file_path <;> rw [hO]] at hc
        cases hc
      | some o =>
        cases hJ : input.job_id with
        | none =>
          rw [show (process_single_image input env).2 = none by
            unfold process_single_image
            cases input.input_file_path <;> cases input.output_file_path <;>
              rw [hJ]] at hc
          cases hc
        | some j =>
          cases hB : input.batch_id with
          | none =>
            rw [show (process_single_image input env).2 = none by
              unfold process_single_image
              cases input.input_file_path <;> cases input.output_file_path <;>
                cases input.job_id <;> rw [hB]] at hc
            cases hc
          | some b =>
            rw [process_single_image_of_fields input env hI hO hJ hB] at hc
            unfold process_single_image_body at hc
            simp only [] at hc
            split_ifs at hc <;> simp_all
  subst hcall
  exact enhanceCallOf_tile input env hface

def demoTileItem : Item :=
  { input_file_path := some "frames/0001.png",
    output_file_path := some "out/0001.png",
    job_id := some "j", batch_id := some 1 }

def demoTileEnv : ItemEnv := { img_h := 1600, img_w := 900 }

theorem tiling_policy_witness :
    (process_single_image demoTileItem demoTileEnv).2
        = some { used_face_enhancer := false, used_anime_model := false,
                 tile := 1024 } ∧
    ({ used_face_enhancer := false, used_anime_model := false,
       tile := 1024 } : EnhanceCall).tile
        = if (demoTileItem.tile_size = none ∨ demoTileItem.tile_size = some 0)
              ∧ 1500 < max demoTileEnv.img_h demoTileEnv.img_w then 1024
          else demoTileItem.tile_size.getD 0 :=
  have hc : (process_single_image demoTileItem demoTileEnv).2
      = some { used_face_enhancer := false, used_anime_model := false,
               tile := 1024 } := by rfl
  ⟨hc, tiling_policy demoTileItem demoTileEnv _ hc rfl⟩

/-- C3: `determine_optimal_batch_size` never raises (it is a total function of
the estimation outcome): on an accelerator-backed device it returns a value in
[1, 16]; on a CPU-only device, or whenever the memory estimation raises for
any reason, it returns exactly 4. -/
theorem safe_batch_size_bounds :
    (∀ msg, determine_optimal_batch_size (Except.error msg) = 4) ∧
    (∀ info : MemInfo, info.cuda_available = false →
      determine_optimal_batch_size (Except.ok info) = 4) ∧
    (∀ info : MemInfo, info.cuda_available = true →
      1 ≤ determine_optimal_batch_size (Except.ok info) ∧
      determine_optimal_batch_size (Except.ok info) ≤ 16) := by
  refine ⟨fun _ => rfl, ?_, ?_⟩
  · intro info h
    simp [determine_optimal_batch_size, h]
  · intro info _
    exact ⟨determine_optimal_batch_size_pos _, determine_optimal_batch_size_le _⟩

theorem safe_batch_size_bounds_witness :
    determine_optimal_batch_size (Except.error "cuda probe failed") = 4 ∧
    determine_optimal_batch_size (Except.ok
      { cuda_available := false, total_memory := 8589934592,
        memory_reserved := 1073741824, memory_allocated := 536870912 }) = 4 ∧
    (1 ≤ determine_optimal_batch_size (Except.ok
        { cuda_available := true, total_memory := 8589934592,
          memory_reserved := 1073741824, memory_allocated := 536870912 }) ∧
      determine_optimal_batch_size (Except.ok
        { cuda_available := true, total_memory := 8589934592,
          memory_reserved := 1073741824, memory_allocated := 536870912 }) ≤ 16) :=
  ⟨safe_batch_size_bounds.1 "cuda probe failed",
   safe_batch_size_bounds.2.1 _ rfl,
   safe_batch_size_bounds.2.2 _ rfl⟩

/-- State of a `functools.lru_cache`: memoized entries, most recently used
first, with the decorator's `maxsize`. -/
structure LruState (κ α : Type) where
  entries : List (κ × α)
  maxsize : ℕ

/-- Outcome of one call through an `lru_cache`-wrapped loader: the returned
value (or the exception it re-raises), the updated cache, and whether the
expensive model construction executed during this call. -/
structure ResolveOut (κ α ε : Type) where
  result : Except ε α
  state : LruState κ α
  loaded : Bool

/-- One call of an `lru_cache`-wrapped loader: a hit returns the memoized
value and marks it most recent; a miss runs the loader, memoizes a successful
value (evicting the least recently used entry beyond `maxsize`) and memoizes
nothing on a raise (`functools.lru_cache` never caches exceptions). For the
loaders in this file a raise occurs before any model construction, so
`loaded` is true exactly when the loader returns successfully. -/
def lruResolve {κ α ε : Type} [DecidableEq κ] (load : κ → Except ε α)
    (s : LruState κ α) (k : κ) : ResolveOut κ α ε :=
  match s.entries.lookup k with
  | some v =>
    { result := .ok v,
      state := { s with entries := (k, v) :: s.entries.filter (fun p => p.1 != k) },
      loaded := false }
  | none =>
    match load k with
    | .ok v =>
      { result := .ok v,
        state := { s with entries := ((k, v) :: s.entries).take s.maxsize },
        loaded := true }
    | .error e => { result := .error e, state := s, loaded := false }

/-- A sequence of calls through the same `lru_cache`-wrapped loader: returns
the final cache, the per-call results, and the log of keys whose expensive
load executed. -/
def lruResolveSeq {κ α ε : Type} [DecidableEq κ] (load : κ → Except ε α)
    (s : LruState κ α) : List κ → LruState κ α × List (Except ε α) × List κ
  | [] => (s, [], [])
  | k :: ks =>
    let out := lruResolve load s k
    let rest := lruResolveSeq load out.state ks
    (rest.1, out.result :: rest.2.1, (if out.loaded then [k] else []) ++ rest.2.2)

/-- The memoization key of `load_model`: the three arguments of the
`@lru_cache`-decorated function. -/
structure ModelKey where
  model_name : String
  model_path : String
  model_type : String
deriving Repr, DecidableEq

/-- The network architecture passed to `RealESRGANer`. -/
inductive ArchModel
  | rrdbnet
  | srvggnetcompact
deriving Repr, DecidableEq

/-- The `RealESRGANer` upsampler handle constructed by `load_model`. -/
structure UpsamplerHandle where
  scale : ℕ
  model_path : String
  model : ArchModel
  tile : ℕ
  tile_pad : ℕ
  pre_pad : ℕ
  half : Bool
deriving Repr, DecidableEq

def netscale : ℕ := 4

/-- Body of `load_model` (realesrgan `inference.py`): construct the
`RealESRGANer` for the `realesrgan` or `anime` model type; any other model
type raises `ValueError` before any model is constructed. -/
def load_model_body (k : ModelKey) : Except String UpsamplerHandle :=
  if k.model_type = "realesrgan" then
    .ok { scale := netscale, model_path := k.model_path, model := .rrdbnet,
          tile := 0, tile_pad := 10, pre_pad := 0, half := true }
  else if k.model_type = "anime" then
    .ok { scale := netscale, model_path := k.model_path, model := .srvggnetcompact,
          tile := 0, tile_pad := 10, pre_pad := 0, half := true }
  else .error ("Unknown model type: " ++ k.model_type)

/-- The empty cache of `@lru_cache(maxsize=1)` wrapping `load_model` at
process start. -/
def loadModelInit : LruState ModelKey UpsamplerHandle :=
  { entries := [], maxsize := 1 }

/-- The key of the standard model as resolved by `model_fn`. -/
def realesrganX4plusKey : ModelKey :=
  { model_name := "realesrgan_x4plus",
    model_path := "/opt/ml/model/RealESRGAN_x4plus.pth",
    model_type := "realesrgan" }

/-- The key of the anime model as resolved by `model_fn`. -/
def realesrganAnimeKey : ModelKey :=
  { model_name := "realesrgan_anime",
    model_path := "/opt/ml/model/realesr-animevideov3.pth",
    model_type := "anime" }

theorem lookup_none_keys {κ α : Type} [DecidableEq κ] (l : List (κ × α)) (k : κ)
    (h : l.lookup k = none) : ∀ p ∈ l, (p.1 != k) = true := by
  induction l with
  | nil => intro p hp; cases hp
  | cons a t ih =>
    obtain ⟨a1, a2⟩ := a
    intro p hp
    cases hka : (k == a1) with
    | true => simp [List.lookup, hka] at h
    | false =>
      rw [List.lookup, hka] at h
      rcases List.mem_cons.mp hp with rfl | hmem
      · simpa [bne_iff_ne] using Ne.symm (by simpa using hka)
      · exact ih h p hmem

theorem lookup_none_of_keys {κ α : Type} [DecidableEq κ] (l : List (κ × α)) (k : κ)
    (h : ∀ p ∈ l, (p.1 != k) = true) : l.lookup k = none := by
  induction l with
  | nil => rfl
  | cons a t ih =>
    obtain ⟨a1, a2⟩ := a
    have h1 : a1 ≠ k := by simpa [bne_iff_ne] using h (a1, a2) (by simp)
    have hka : (k == a1) = false := by simpa using Ne.symm h1
    rw [List.lookup, hka]
    exact ih fun p hp => h p (List.mem_cons_of_mem _ hp)

theorem lruResolve_loaded_ok {κ α ε : Type} [DecidableEq κ]
    (load : κ → Except ε α) (s : LruState κ α) (k : κ)
    (h : (lruResolve load s k).loaded = true) : ∃ v, load k = .ok v := by
  unfold lruResolve at h
  cases hl : s.entries.lookup k with
  | some v => simp [hl] at h
  | none =>
    rw [hl] at h
    cases hldr : load k with
    | ok v => exact ⟨v, rfl⟩
    | error e => simp [hldr] at h

/-- A key whose loader always raises is never inserted into the cache. -/
theorem lruResolve_not_cached {κ α ε : Type} [DecidableEq κ]
    (load : κ → Except ε α) (s : LruState κ α) (k k' : κ)
    (hk : s.entries.lookup k = none) (he : ∀ v, load k ≠ .ok v) :
    ((lruResolve load s k').state).entries.lookup k = none := by
  unfold lruResolve
  cases hl : s.entries.lookup k' with
  | some v =>
    simp only []
    apply lookup_none_of_keys
    intro p hp
    rcases List.mem_cons.mp hp with rfl | hmem
    · have hne : k' ≠ k := by
        intro hkk
        subst hkk
        rw [hk] at hl
        cases hl
      simpa [bne_iff_ne] using hne
    · exact lookup_none_keys _ _ hk p (List.mem_of_mem_filter hmem)
  | none =>
    cases hldr : load k' with
    | ok v =>
      simp only []
      apply lookup_none_of_keys
      intro p hp
      have hp2 : p ∈ (k', v) :: s.entries := List.take_subset _ _ hp
      rcases List.mem_cons.mp hp2 with rfl | hmem
      · have hne : k' ≠ k := by
          intro hkk
          subst hkk
          exact he v hldr
        simpa [bne_iff_ne] using hne
      · exact lookup_none_keys _ _ hk p hmem
    | error e => simpa using hk

theorem lruResolveSeq_not_cached {κ α ε : Type} [DecidableEq κ]
    (load : κ → Except ε α) (k : κ) (he : ∀ v, load k ≠ .ok v) :
    ∀ (ks : List κ) (s : LruState κ α), s.entries.lookup k = none →
      ((lruResolveSeq load s ks).1).entries.lookup k = none := by
  intro ks
  induction ks with
  | nil => intro s h; exact h
  | cons k' ks ih =>
    intro s h
    simp only [lruResolveSeq]
    exact ih _ (lruResolve_not_cached load s k k' h he)

/-- The load log only records keys whose loader returned successfully. -/
theorem lruResolveSeq_loads_ok {κ α ε : Type} [DecidableEq κ]
    (load : κ → Except ε α) (k : κ) (he : ∀ v, load k ≠ .ok v) :
    ∀ (ks : List κ) (s : LruState κ α), k ∉ (lruResolveSeq load s ks).2.2 := by
  intro ks
  induction ks with
  | nil => intro s; simp [lruResolveSeq]
  | cons k' ks ih =>
    intro s hmem
    simp only [lruResolveSeq] at hmem
    rcases List.mem_append.mp hmem with h1 | h2
    · by_cases hld : (lruResolve load s k').loaded = true
      · rw [if_pos hld] at h1
        have hk : k = k' := by simpa using h1
        subst hk
        obtain ⟨v, hv⟩ := lruResolve_loaded_ok load s k hld
        exact he v hv
      · rw [if_neg hld] at h1
        cases h1
    · exact ih _ h2

/-- Resolving an uncached key whose loader raises leaves the cache unchanged,
re-raises, and runs no load. -/
theorem lruResolve_error {κ α ε : Type} [DecidableEq κ]
    (load : κ → Except ε α) (s : LruState κ α) (k : κ) (e : ε)
    (hk : s.entries.lookup k = none) (he : load k = .error e) :
    lruResolve load s k = { result := .error e, state := s, loaded := false } := by
  unfold lruResolve
  rw [hk, he]

/-- C5 counterexample: `load_model` is wrapped in `@lru_cache(maxsize=1)`, so
resolving the standard key, then the anime key (as `model_fn` itself does),
then the standard key again runs the expensive load of the standard key
twice: an intervening resolve of a different key evicts the single-entry
cache, falsifying "a second resolve of the same key returns the memoized
handle without running the load again, regardless of which other keys were
resolved in between". -/
theorem model_load_runs_twice_for_same_key :
    ¬ ((lruResolveSeq load_model_body loadModelInit
        [realesrganX4plusKey, realesrganAnimeKey, realesrganX4plusKey]).2.2.count
          realesrganX4plusKey ≤ 1) := by decide

/-- C5 (amended): for a fixed key, a second resolve returns the memoized
handle without running the load again provided no other key was resolved in
between (for any cache capacity ≥ 1; realesrgan's `load_model` uses
`maxsize=1`, so an intervening resolve of any different key evicts the entry
and forces a reload, as the counterexample shows). -/
theorem model_load_memoized_without_intervening_key
    (s : LruState ModelKey UpsamplerHandle) (k : ModelKey) (v : UpsamplerHandle)
    (hcap : 1 ≤ s.maxsize)
    (h : (lruResolve load_model_body s k).result = .ok v) :
    (lruResolve load_model_body (lruResolve load_model_body s k).state k).result
        = .ok v ∧
    (lruResolve load_model_body (lruResolve load_model_body s k).state k).loaded
        = false := by
  unfold lruResolve at h ⊢
  cases hl : s.entries.lookup k with
  | some v0 =>
    rw [hl] at h
    simp only [] at h ⊢
    obtain rfl : v0 = v := by simpa using h
    constructor <;> simp [List.lookup]
  | none =>
    rw [hl] at h
    cases hldr : load_model_body k with
    | ok v0 =>
      rw [hldr] at h
      simp only [] at h ⊢
      obtain rfl : v0 = v := by simpa using h
      obtain ⟨m, hm⟩ : ∃ m, s.maxsize = m + 1 := ⟨s.maxsize - 1, by omega⟩
      rw [hm]
      constructor <;> simp [List.take_succ_cons, List.lookup]
    | error e =>
      rw [hldr] at h
      simp at h

theorem model_load_memoized_witness :
    (lruResolve load_model_body
      (lruResolve load_model_body loadModelInit realesrganX4plusKey).state
      realesrganX4plusKey).result
        = .ok { scale := 4,
                model_path := "/opt/ml/model/RealESRGAN_x4plus.pth",
                model := .rrdbnet, tile := 0, tile_pad := 10, pre_pad := 0,
                half := true } ∧
    (lruResolve load_model_body
      (lruResolve load_model_body loadModelInit realesrganX4plusKey).state
      realesrganX4plusKey).loaded = false :=
  model_load_memoized_without_intervening_key loadModelInit realesrganX4plusKey _
    (by decide) (by rfl)

end Realesrgan

namespace Swinir

/-- One entry of `MODEL_VARIANTS` (swinir2 `inference.py`): weights file name
and scale. -/
structure VariantCfg where
  name : String
  scale : ℕ
deriving Repr, DecidableEq

/-- The `MODEL_VARIANTS` table of swinir2 `inference.py` (descriptions are
log-only and omitted). -/
def MODEL_VARIANTS : List (String × VariantCfg) :=
  [("real_sr", { name := "Swin2SR_RealworldSR_X4_64_BSRGAN_PSNR.pth", scale := 4 }),
   ("classical_sr", { name := "Swin2SR_ClassicalSR_X4_64_PSNR.pth", scale := 4 }),
   ("lightweight_sr", { name := "Swin2SR_Lightweight_X4_64_PSNR.pth", scale := 4 }),
   ("color_dn", { name := "Swin2SR_ColorDN_DFWB_s128w8_PSNR.pth", scale := 1 }),
   ("jpeg_car", { name := "Swin2SR_ColorJPEG_s126w7_PSNR.pth", scale := 1 })]

def DEFAULT_MODEL_VARIANT : String := "real_sr"

/-- A loaded SwinIR model handle (`define_model(...).to(device).eval()`): it
records which weights file, variant and scale were loaded. -/
structure SwModel where
  model_path : String
  variant : String
  scale : ℕ
deriving Repr, DecidableEq

/-- Body of swinir2 `model_fn` (one call, before `@lru_cache(maxsize=5)`):
an unknown or missing `model_variant` falls back to the default variant with
a warning (it does not raise), a missing weights file falls back to the
default variant's weights, and a model is then loaded unconditionally.
`file_exists` is the oracle for `os.path.exists`. -/
def model_fn (model_dir : String) (model_variant : Option String)
    (file_exists : String → Bool) : SwModel :=
  let mv := match model_variant with
    | none => DEFAULT_MODEL_VARIANT
    | some v => if (MODEL_VARIANTS.lookup v).isSome then v else DEFAULT_MODEL_VARIANT
  let cfg := (MODEL_VARIANTS.lookup mv).getD { name := "", scale := 0 }
  let model_path := model_dir ++ "/" ++ cfg.name
  if file_exists model_path then
    { model_path := model_path, variant := mv, scale := cfg.scale }
  else
    let cfg2 := (MODEL_VARIANTS.lookup DEFAULT_MODEL_VARIANT).getD
      { name := "", scale := 0 }
    { model_path := model_dir ++ "/" ++ cfg2.name,
      variant := DEFAULT_MODEL_VARIANT, scale := cfg2.scale }

/-- A swinir request item; `job_id`/`batch_id` are caller-supplied strings. -/
structure SwItem where
  input_file_path : Option String := none
  output_file_path : Option String := none
  job_id : Option String := none
  batch_id : Option String := none
  model_variant : Option String := none
deriving Repr, DecidableEq

/-- Effect oracle for one swinir `process_single_image` call. -/
structure SwEnv where
  download_ok : Bool := true
  image_readable : Bool := true
  inference_ok : Bool := true
  imwrite_ok : Bool := true
  upload_ok : Bool := true
  copy_ok : Bool := true
deriving Repr, DecidableEq

/-- A result dict as built by swinir2 `process_single_image` / `predict_fn`. -/
structure SwEntry where
  status : ℕ
  error : Option String := none
  job_id : Option String := none
  batch_id : Option String := none
  output_file_path : Option String := none
deriving Repr, DecidableEq

/-- Embedding of swinir2 `process_single_image`: download when the input is
an `s3://` URI, decode, pad/infer/clamp (all-or-nothing under the inference
oracle), write locally, then upload or copy — each stage's failure returning
a status-500 entry; a missing required field raises `KeyError`. -/
def process_single_image (input_item : SwItem) (env : SwEnv) :
    Except String SwEntry :=
  match input_item.input_file_path, input_item.output_file_path,
        input_item.job_id, input_item.batch_id with
  | some input_file_path, some output_file_path, some job_id, some batch_id =>
    let is_s3_input := Realesrgan.startswith "s3://" input_file_path
    let is_s3_output := Realesrgan.startswith "s3://" output_file_path
    let local_output_path := Realesrgan.local_output_path_of input_file_path
    let fail : SwEntry :=
      { status := 500, job_id := some job_id, batch_id := some batch_id }
    if is_s3_input ∧ env.download_ok = false then
      .ok { fail with error := some "download error" }
    else if env.image_readable = false then
      .ok { fail with error := some "read error" }
    else if env.inference_ok = false then
      .ok { fail with error := some "inference error" }
    else if env.imwrite_ok = false then
      .ok { fail with error := some "imwrite error" }
    else
      let ok : SwEntry := { status := 200,
                            output_file_path := some output_file_path,
                            job_id := some job_id, batch_id := some batch_id }
      if is_s3_output then
        if env.upload_ok = false then .ok { fail with error := some "upload error" }
        else .ok ok
      else if local_output_path ≠ output_file_path then
        if env.copy_ok = false then .ok { fail with error := some "copy error" }
        else .ok ok
      else .ok ok
  | _, _, _, _ => .error "KeyError: missing required request field"

/-- The two response shapes `predict_fn` can return: a bare single-result
dict, or a list of result dicts. -/
inductive SwResponse
  | single (e : SwEntry)
  | multiple (l : List SwEntry)
deriving Repr, DecidableEq

/-- Embedding of swinir2 `predict_fn`. A one-item batch is processed inline
(its result returned bare, and an exception propagating). A longer batch is
fanned out over a thread pool, failures captured per item, and the list of
results returned; the completion order of `as_completed` is the `order`
parameter. An empty batch makes `ThreadPoolExecutor(max_workers=0)` raise,
which the outer `except` converts into a single batch-level error entry in a
list. -/
def predict_fn (input_data_batch : List SwItem) (envs : ℕ → SwEnv)
    (order : List ℕ) : Except String SwResponse :=
  match input_data_batch with
  | [item] => (process_single_image item (envs 0)).map SwResponse.single
  | [] =>
    .ok (.multiple [{ status := 500,
                      error := some "Batch processing error: max_workers must be greater than 0",
                      job_id := some "batch", batch_id := some "batch" }])
  | batch =>
    .ok (.multiple (order.filterMap fun k => (batch[k]?).map fun item =>
      match process_single_image item (envs k) with
      | .ok e => e
      | .error msg =>
        { status := 500, error := some msg,
          job_id := some (item.job_id.getD "unknown"),
          batch_id := some (item.batch_id.getD "unknown") }))

/-- C10: the swinir batch prediction entry point returns a bare single-result
dict when the input batch has exactly one item, but a list of result dicts
when it has two or more items — the response shape depends on the batch
length. -/
theorem predict_fn_shape (batch : List SwItem) (envs : ℕ → SwEnv)
    (order : List ℕ) :
    (batch.length = 1 → ∀ r, predict_fn batch envs order = Except.ok r →
      ∃ e, r = SwResponse.single e) ∧
    (2 ≤ batch.length →
      ∃ l, predict_fn batch envs order = Except.ok (SwResponse.multiple l)) := by
  constructor
  · intro h1 r hr
    match batch, h1 with
    | [item], _ =>
      simp only [predict_fn] at hr
      cases hps : process_single_image item (envs 0) with
      | ok e =>
        rw [hps] at hr
        refine ⟨e, ?_⟩
        have : Except.ok (SwResponse.single e) = Except.ok r := hr
        injection this with h2
        exact h2.symm
      | error m =>
        rw [hps] at hr
        cases hr
  · intro h2
    match batch, h2 with
    | a :: b :: rest, _ =>
      exact ⟨(order.filterMap fun k => ((a :: b :: rest)[k]?).map fun item =>
        match process_single_image item (envs k) with
        | .ok e => e
        | .error msg =>
          { status := 500, error := some msg,
            job_id := some (item.job_id.getD "unknown"),
            batch_id := some (item.batch_id.getD "unknown") }), rfl⟩

def demoSwItem : SwItem :=
  { input_file_path := some "frames/0001.png",
    output_file_path := some "out.png",
    job_id := some "001", batch_id := some "001" }

theorem predict_fn_shape_witness :
    (∃ e, SwResponse.single
        ({ status := 200, output_file_path := some "out.png",
           job_id := some "001", batch_id := some "001" } : SwEntry)
      = SwResponse.single e) ∧
    (∃ l, predict_fn [demoSwItem, demoSwItem] (fun _ => {}) [0, 1]
      = Except.ok (SwResponse.multiple l)) :=
  ⟨(predict_fn_shape [demoSwItem] (fun _ => {}) [0]).1 rfl
      (SwResponse.single
        { status := 200, output_file_path := some "out.png",
          job_id := some "001", batch_id := some "001" }) (by rfl),
   (predict_fn_shape [demoSwItem, demoSwItem] (fun _ => {}) [0, 1]).2
      (by decide)⟩

end Swinir

/-- C6 counterexample: in swinir2, resolving a model key with an unrecognized
variant does not fail with an unsupported-model-kind error: `model_fn` falls
back to the default variant and loads the default weights, so a model load IS
attempted and a handle IS returned. -/
theorem unknown_variant_falls_back_and_loads :
    Swinir.model_fn "/opt/ml/model" (some "unknown_variant") (fun _ => true)
      = { model_path := "/opt/ml/model/Swin2SR_RealworldSR_X4_64_BSRGAN_PSNR.pth",
          variant := "real_sr", scale := 4 } := by decide

/-- C6 (amended): realesrgan's `load_model` raises "Unknown model type" on an
unrecognized model type — on the first resolve, again on a repeated resolve
after any other resolves in between (`lru_cache` memoizes no exceptions), and
without ever executing a model load; swinir2's `model_fn`, by contrast, does
not fail on an unrecognized variant: it falls back to the default variant and
loads that model. -/
theorem unknown_model_kind_fails_without_load
    (pre mid : List Realesrgan.ModelKey) (k : Realesrgan.ModelKey)
    (h1 : k.model_type ≠ "realesrgan") (h2 : k.model_type ≠ "anime") :
    (Realesrgan.lruResolve Realesrgan.load_model_body
        (Realesrgan.lruResolveSeq Realesrgan.load_model_body
          Realesrgan.loadModelInit pre).1 k).result
      = .error ("Unknown model type: " ++ k.model_type) ∧
    (Realesrgan.lruResolve Realesrgan.load_model_body
        (Realesrgan.lruResolveSeq Realesrgan.load_model_body
          Realesrgan.loadModelInit (pre ++ [k] ++ mid)).1 k).result
      = .error ("Unknown model type: " ++ k.model_type) ∧
    k ∉ (Realesrgan.lruResolveSeq Realesrgan.load_model_body
          Realesrgan.loadModelInit (pre ++ [k] ++ mid ++ [k])).2.2 ∧
    (∀ dir v files, Swinir.MODEL_VARIANTS.lookup v = none →
      (Swinir.model_fn dir (some v) files).variant
        = Swinir.DEFAULT_MODEL_VARIANT) := by
  have he : Realesrgan.load_model_body k
      = .error ("Unknown model type: " ++ k.model_type) := by
    unfold Realesrgan.load_model_body
    rw [if_neg h1, if_neg h2]
  have henotok : ∀ v, Realesrgan.load_model_body k ≠ .ok v := by
    intro v hv
    rw [he] at hv
    cases hv
  have hinit : (Realesrgan.loadModelInit).entries.lookup k = none := rfl
  refine ⟨?_, ?_, ?_, ?_⟩
  · have hnc := Realesrgan.lruResolveSeq_not_cached
      Realesrgan.load_model_body k henotok pre Realesrgan.loadModelInit hinit
    rw [Realesrgan.lruResolve_error Realesrgan.load_model_body _ k _ hnc he]
  · have hnc := Realesrgan.lruResolveSeq_not_cached
      Realesrgan.load_model_body k henotok (pre ++ [k] ++ mid)
      Realesrgan.loadModelInit hinit
    rw [Realesrgan.lruResolve_error Realesrgan.load_model_body _ k _ hnc he]
  · exact Realesrgan.lruResolveSeq_loads_ok Realesrgan.load_model_body k henotok
      (pre ++ [k] ++ mid ++ [k]) Realesrgan.loadModelInit
  · intro dir v files hv
    unfold Swinir.model_fn
    simp only []
    rw [hv]
    simp only [Option.isSome_none, Bool.false_eq_true, if_false]
    split_ifs <;> rfl

/-- An unrecognized model key: its type names neither of the two supported
realesrgan architectures. -/
def bogusModelKey : Realesrgan.ModelKey :=
  { model_name := "swinir_like", model_path := "/opt/ml/model/other.pth",
    model_type := "swinir" }

theorem unknown_model_kind_witness :
    (Realesrgan.lruResolve Realesrgan.load_model_body
        (Realesrgan.lruResolveSeq Realesrgan.load_model_body
          Realesrgan.loadModelInit [Realesrgan.realesrganX4plusKey]).1
        bogusModelKey).result
      = .error ("Unknown model type: " ++ bogusModelKey.model_type) ∧
    (Realesrgan.lruResolve Realesrgan.load_model_body
        (Realesrgan.lruResolveSeq Realesrgan.load_model_body
          Realesrgan.loadModelInit
          ([Realesrgan.realesrganX4plusKey] ++ [bogusModelKey]
            ++ [Realesrgan.realesrganAnimeKey])).1 bogusModelKey).result
      = .error ("Unknown model type: " ++ bogusModelKey.model_type) ∧
    bogusModelKey ∉ (Realesrgan.lruResolveSeq Realesrgan.load_model_body
          Realesrgan.loadModelInit
          ([Realesrgan.realesrganX4plusKey] ++ [bogusModelKey]
            ++ [Realesrgan.realesrganAnimeKey] ++ [bogusModelKey])).2.2 ∧
    (∀ dir v files, Swinir.MODEL_VARIANTS.lookup v = none →
      (Swinir.model_fn dir (some v) files).variant
        = Swinir.DEFAULT_MODEL_VARIANT) :=
  unknown_model_kind_fails_without_load [Realesrgan.realesrganX4plusKey]
    [Realesrgan.realesrganAnimeKey] bogusModelKey (by decide) (by decide)

namespace Realesrgan

/-- Oracle for the network interactions of one `download_from_s3` call:
whether `head_object` on the main key succeeds (and the reported size),
whether the compressed sibling object exists (`head_object` on `key + ".gz"`),
whether the compressed `get_object` succeeds, and whether a plain
`download_file` succeeds. -/
structure DownloadEnv where
  head_ok : Bool := true
  content_length : ℕ := 0
  compressed_exists : Bool := true
  get_ok : Bool := true
  download_ok : Bool := true
deriving Repr, DecidableEq

/-- Result of a `download_from_s3` call: the returned path (or the re-raised
`ClientError`), the local filesystem afterwards, and how many network
operations the call performed. -/
structure FetchOut where
  result : Except String String
  files : List String
  network_ops : ℕ

/-- Embedding of `download_from_s3` (realesrgan `inference.py`). A cached
local path short-circuits before any network use; a non-`s3://` input passes
through unchanged; otherwise the size is probed (`head_object`, failures
caught as size 0) and the object downloaded — when compression mode is on and
the compressed sibling exists, `open(local_path, 'wb')` creates the local
file before `get_object`, and a `ClientError` from `get_object` falls back to
a regular download; the multipart branch only changes the transfer
configuration. -/
def download_from_s3 (use_compression : Bool) (env : DownloadEnv)
    (s3_uri local_path : String) (files : List String) : FetchOut :=
  if local_path ∈ files then
    { result := .ok local_path, files := files, network_ops := 0 }
  else if startswith "s3://" s3_uri = false then
    { result := .ok s3_uri, files := files, network_ops := 0 }
  else
    let file_size := if env.head_ok then env.content_length else 0
    if use_compression then
      if env.compressed_exists then
        let files1 := files.insert local_path
        if env.get_ok then
          { result := .ok local_path, files := files1, network_ops := 3 }
        else
          if MULTIPART_THRESHOLD < file_size then
            if env.download_ok then
              { result := .ok local_path, files := files1, network_ops := 4 }
            else
              { result := .error "ClientError: download", files := files1,
                network_ops := 4 }
          else
            if env.download_ok then
              { result := .ok local_path, files := files1, network_ops := 4 }
            else
              { result := .error "ClientError: download", files := files1,
                network_ops := 4 }
      else
        if MULTIPART_THRESHOLD < file_size then
          if env.download_ok then
            { result := .ok local_path, files := files.insert local_path,
              network_ops := 3 }
          else
            { result := .error "ClientError: download", files := files,
              network_ops := 3 }
        else
          if env.download_ok then
            { result := .ok local_path, files := files.insert local_path,
              network_ops := 3 }
          else
            { result := .error "ClientError: download", files := files,
              network_ops := 3 }
    else
      if MULTIPART_THRESHOLD < file_size then
        if env.download_ok then
          { result := .ok local_path, files := files.insert local_path,
            network_ops := 2 }
        else
          { result := .error "ClientError: download", files := files,
            network_ops := 2 }
      else
        if env.download_ok then
          { result := .ok local_path, files := files.insert local_path,
            network_ops := 2 }
        else
          { result := .error "ClientError: download", files := files,
            network_ops := 2 }

end Realesrgan

namespace Realesrgan

/-- C7: if the derived local cache path already exists on disk, the fetch
returns that path immediately with zero network operations; consequently,
after any fetch that returned successfully, fetching the same URI and cache
path again (under any compression setting and any network behavior) performs
zero network operations, returns the same path, and leaves the filesystem
unchanged. -/
theorem fetch_cache_idempotent (uc uc2 : Bool) (env env2 : DownloadEnv)
    (s3_uri local_path : String) (files : List String) :
    (local_path ∈ files →
      download_from_s3 uc env s3_uri local_path files
        = { result := .ok local_path, files := files, network_ops := 0 }) ∧
    (∀ p fs n, download_from_s3 uc env s3_uri local_path files
        = { result := .ok p, files := fs, network_ops := n } →
      download_from_s3 uc2 env2 s3_uri local_path fs
        = { result := .ok p, files := fs, network_ops := 0 }) := by
  constructor
  · intro hmem
    unfold download_from_s3
    rw [if_pos hmem]
  · intro p fs n h
    unfold download_from_s3 at h ⊢
    simp only [ite_self] at h ⊢
    split_ifs at h <;> simp only [FetchOut.mk.injEq] at h <;>
      obtain ⟨hp, hfs, hn⟩ := h <;>
      first
        | (injection hp with hp2
           subst hp2
           subst hfs
           simp [*, List.mem_insert_iff])
        | injection hp

theorem fetch_cache_idempotent_witness :
    download_from_s3 false ({} : DownloadEnv) "s3://bkt/frames/0001.png"
        "/tmp/image_cache/0001.png" ["/tmp/image_cache/0001.png"]
      = { result := .ok "/tmp/image_cache/0001.png",
          files := ["/tmp/image_cache/0001.png"], network_ops := 0 } ∧
    download_from_s3 true { get_ok := false, download_ok := false }
        "s3://bkt/frames/0001.png" "/tmp/image_cache/0001.png"
        ["/tmp/image_cache/0001.png"]
      = { result := .ok "/tmp/image_cache/0001.png",
          files := ["/tmp/image_cache/0001.png"], network_ops := 0 } :=
  ⟨(fetch_cache_idempotent false true ({} : DownloadEnv)
      { get_ok := false, download_ok := false } "s3://bkt/frames/0001.png"
      "/tmp/image_cache/0001.png" ["/tmp/image_cache/0001.png"]).1
      (by simp),
   (fetch_cache_idempotent false true ({} : DownloadEnv)
      { get_ok := false, download_ok := false } "s3://bkt/frames/0001.png"
      "/tmp/image_cache/0001.png" []).2
      "/tmp/image_cache/0001.png" ["/tmp/image_cache/0001.png"] 2 (by rfl)⟩

end Realesrgan

namespace Realesrgan

/-- Python `s3_uri[5:].split('/', 1)` turned into (bucket, key): key is empty
when there is no `/` after the bucket. -/
def s3_bucket_key (s3_uri : String) : String × String :=
  let rest := s3_uri.toList.drop 5
  let bucket := rest.takeWhile (fun c => c != '/')
  match rest.dropWhile (fun c => c != '/') with
  | [] => (String.mk bucket, "")
  | _ :: key => (String.mk bucket, String.mk key)

/-- Oracle for the network interactions of one `upload_to_s3` call: whether
the upload of the compressed object and of the original object succeed. -/
structure UploadEnv where
  upload_compressed_ok : Bool := true
  upload_original_ok : Bool := true
deriving Repr, DecidableEq

/-- Result of an `upload_to_s3` call: the returned URI (or the re-raised
`ClientError`), the local filesystem afterwards, and the log of successful
`upload_file` calls as (local source path, S3 key, multipart used). -/
structure StoreOut where
  result : Except String String
  files : List String
  uploads : List (String × String × Bool)

/-- Embedding of `upload_to_s3` (realesrgan `inference.py`). A non-`s3://`
destination passes through. With compression enabled, the file is gzipped to
the temporary sibling `local_path + ".gz"`, that object is uploaded under
`key + ".gz"`, the temporary file is removed with `os.remove` (not in a
`finally` block — only after the compressed upload succeeded), and the
original uncompressed object is then uploaded too. The multipart branch only
changes the transfer configuration. -/
def upload_to_s3 (use_compression : Bool) (env : UploadEnv)
    (local_path s3_uri : String) (file_size : ℕ) (files : List String) :
    StoreOut :=
  if startswith "s3://" s3_uri = false then
    { result := .ok local_path, files := files, uploads := [] }
  else
    let key := (s3_bucket_key s3_uri).2
    let multipart : Bool := decide (MULTIPART_THRESHOLD < file_size)
    if use_compression then
      let compressed_key := key ++ ".gz"
      let compressed_path := local_path ++ ".gz"
      let files1 := files.insert compressed_path
      if env.upload_compressed_ok = false then
        { result := .error "ClientError: upload", files := files1, uploads := [] }
      else
        let files2 := files1.erase compressed_path
        if env.upload_original_ok = false then
          { result := .error "ClientError: upload", files := files2,
            uploads := [(compressed_path, compressed_key, multipart)] }
        else
          { result := .ok s3_uri, files := files2,
            uploads := [(compressed_path, compressed_key, multipart),
                        (local_path, key, multipart)] }
    else
      if env.upload_original_ok = false then
        { result := .error "ClientError: upload", files := files, uploads := [] }
      else
        { result := .ok s3_uri, files := files,
          uploads := [(local_path, key, multipart)] }

/-- C8 counterexample: with compression mode enabled on an `s3://`
destination, when the upload of the compressed object fails with a transfer
error, `upload_to_s3` re-raises and the temporary compressed sibling file is
NOT deleted — the `os.remove` is not in a `finally` block, so the temporary
file survives the failed call, falsifying "that temporary file has been
deleted whether the call returns successfully or fails with a transfer
error". -/
theorem compressed_temp_left_on_failure :
    (upload_to_s3 true { upload_compressed_ok := false, upload_original_ok := true }
        "/tmp/image_cache/x.png" "s3://bkt/out/x.png" 1024 []).result
      = Except.error "ClientError: upload" ∧
    "/tmp/image_cache/x.png.gz" ∈ (upload_to_s3 true
        { upload_compressed_ok := false, upload_original_ok := true }
        "/tmp/image_cache/x.png" "s3://bkt/out/x.png" 1024 []).files := by
  constructor
  · rfl
  · simp [upload_to_s3, startswith, List.insert]

/-- C8 (amended): with compression mode enabled on an `s3://` destination the
temporary compressed sibling (`local path + ".gz"`) is created and uploaded
under `key + ".gz"`; it is deleted as soon as the compressed upload succeeds
— in particular whenever the call returns successfully, and also when the
subsequent upload of the uncompressed original fails — but when the
compressed upload itself fails with a transfer error the call re-raises
without deleting the temporary file. -/
theorem compressed_temp_lifecycle (env : UploadEnv) (local_path s3_uri : String)
    (file_size : ℕ) (files : List String)
    (hs3 : startswith "s3://" s3_uri = true)
    (hfresh : (local_path ++ ".gz") ∉ files) :
    (env.upload_compressed_ok = true →
      (local_path ++ ".gz") ∉
        (upload_to_s3 true env local_path s3_uri file_size files).files ∧
      (local_path ++ ".gz", (s3_bucket_key s3_uri).2 ++ ".gz",
          decide (MULTIPART_THRESHOLD < file_size)) ∈
        (upload_to_s3 true env local_path s3_uri file_size files).uploads) ∧
    (env.upload_compressed_ok = false →
      (upload_to_s3 true env local_path s3_uri file_size files).result
          = Except.error "ClientError: upload" ∧
      (local_path ++ ".gz") ∈
        (upload_to_s3 true env local_path s3_uri file_size files).files) := by
  unfold upload_to_s3
  have hns3 : ¬(startswith "s3://" s3_uri = false) := by
    intro hc
    rw [hs3] at hc
    exact Bool.noConfusion hc
  rw [if_neg hns3]
  simp only []
  have herase : (files.insert (local_path ++ ".gz")).erase (local_path ++ ".gz")
      = files := by
    rw [List.insert_of_not_mem hfresh, List.erase_cons_head]
  refine ⟨?_, ?_⟩
  · intro hok
    have h1 : ¬(env.upload_compressed_ok = false) := by
      intro hc
      rw [hok] at hc
      exact Bool.noConfusion hc
    rw [if_neg h1]
    by_cases horig : env.upload_original_ok = false
    · rw [if_pos horig]
      refine ⟨?_, List.mem_cons_self _ _⟩
      simpa [herase] using hfresh
    · rw [if_neg horig]
      refine ⟨?_, List.mem_cons_self _ _⟩
      simpa [herase] using hfresh
  · intro hfail
    rw [if_pos hfail]
    refine ⟨rfl, ?_⟩
    rw [List.insert_of_not_mem hfresh]
    exact List.mem_cons_self _ _

theorem compressed_temp_lifecycle_witness :
    ("/tmp/image_cache/x.png.gz") ∉
      (upload_to_s3 true ({} : UploadEnv) "/tmp/image_cache/x.png"
        "s3://bkt/out/x.png" 1024 []).files ∧
    ("/tmp/image_cache/x.png.gz", "out/x.png.gz", false) ∈
      (upload_to_s3 true ({} : UploadEnv) "/tmp/image_cache/x.png"
        "s3://bkt/out/x.png" 1024 []).uploads :=
  (compressed_temp_lifecycle ({} : UploadEnv) "/tmp/image_cache/x.png"
    "s3://bkt/out/x.png" 1024 [] (by decide) (by simp)).1 rfl

end Realesrgan
